import Mathlib

/-
Verification of the multiuser-banking core: a shallow embedding of the
priority calculator, the redis-backed priority queue and time-lock scheduler,
and the transaction state machine (reserve / finalize / rollback / cancel),
translated from the TypeScript services and controllers of the repository.

Money amounts (DECIMAL in the database) and priority scores are modelled as
exact rationals; timestamps are integers counting milliseconds, matching
Date.getTime in the source.
-/

namespace Banking

/-! ### Enumerations (prisma schema) -/

inductive Tier
  | BASIC
  | PREMIUM
  | VIP
deriving DecidableEq, Repr

inductive Urgency
  | NORMAL
  | EMI
  | MEDICAL
deriving DecidableEq, Repr

inductive TxStatus
  | CREATED
  | LOCKED
  | QUEUED
  | RESERVED
  | PENDING_MANUAL
  | COMPLETED
  | FAILED
  | CANCELLED
deriving DecidableEq, Repr

inductive LedgerType
  | DEBIT
  | CREDIT
  | RESERVE
  | RELEASE
deriving DecidableEq, Repr

/-! ### Configuration (src/backend/src/config/index.ts, default values) -/

def urgencyWeights : Urgency → ℚ
  | .NORMAL => 1
  | .EMI => 3
  | .MEDICAL => 5

def tierWeights : Tier → ℚ
  | .BASIC => 0
  | .PREMIUM => 2
  | .VIP => 4

def tierReserves : Tier → ℚ
  | .BASIC => 100
  | .PREMIUM => 300
  | .VIP => 500

def timelockThreshold : ℚ := 10000

def timelockSeconds : ℤ := 30

def agingFactor : ℚ := 1 / 10

/-! ### Priority calculator (src/backend/src/services/queue.service.ts) -/

/-- QueueService.calculateBasePriority:
(urgencyWeight * 2.0) + (tierWeight * 1.5) - (riskScore * 0.5). -/
def calculateBasePriority (urgency : Urgency) (tier : Tier) (riskScore : ℚ) : ℚ :=
  urgencyWeights urgency * 2 + tierWeights tier * (3 / 2) - riskScore * (1 / 2)

/-- Math.floor((now - createdAt.getTime()) / 1000), both timestamps in ms. -/
def waitSeconds (createdAt now : ℤ) : ℤ :=
  Int.fdiv (now - createdAt) 1000

/-- QueueService.calculateEffectivePriority:
basePriority + (waitSeconds * agingFactor). -/
def calculateEffectivePriority (basePriority : ℚ) (createdAt now : ℤ) : ℚ :=
  basePriority + (waitSeconds createdAt now : ℚ) * agingFactor

/-! ### Redis sorted-set model

A redis ZSET is a finite map member-to-score, read back in ascending
(score, member) order, where members that compare equal on score are ordered
by the lexicographic order of the member strings (memcmp on their UTF-8
bytes, which agrees with codepoint order). We model the map as an
association list without duplicate members (zadd updates in place) and the
read order by sorting on demand. -/

/-- Strict byte-lexicographic comparison of members, as memcmp does on the
UTF-8 encodings (UTF-8 encoding preserves codepoint order). -/
def charListLtb : List Char → List Char → Bool
  | [], [] => false
  | [], _ :: _ => true
  | _ :: _, [] => false
  | a :: as, b :: bs =>
    if a.val.toNat < b.val.toNat then true
    else if b.val.toNat < a.val.toNat then false
    else charListLtb as bs

def memLtb (a b : String) : Bool :=
  charListLtb a.data b.data

/-- ZADD key score member: update the score in place when the member is
present, append it otherwise. -/
def zadd {β : Type} (l : List (String × β)) (member : String) (score : β) :
    List (String × β) :=
  if l.any (fun p => p.1 == member) then
    l.map (fun p => if p.1 == member then (member, score) else p)
  else l ++ [(member, score)]

/-- ZREM key member: remove the member, a no-op when absent. -/
def zrem {β : Type} (l : List (String × β)) (member : String) :
    List (String × β) :=
  l.filter (fun p => !(p.1 == member))

/-- The ascending (score, member) rank order used by ZRANGE. -/
def zBefore (a b : String × ℚ) : Prop :=
  a.2 < b.2 ∨ (a.2 = b.2 ∧ memLtb b.1 a.1 = false)

instance (a b : String × ℚ) : Decidable (zBefore a b) := by
  unfold zBefore
  infer_instance

def zInsert (x : String × ℚ) : List (String × ℚ) → List (String × ℚ)
  | [] => [x]
  | y :: ys => if zBefore x y then x :: y :: ys else y :: zInsert x ys

/-- The members of a ZSET listed in ascending (score, member) order. -/
def zSorted (l : List (String × ℚ)) : List (String × ℚ) :=
  l.foldr zInsert []

/-! ### Data model (prisma schema) -/

structure Account where
  id : String
  accountNumber : String
  balance : ℚ
  reservedAmount : ℚ
  tier : Tier
  riskScore : ℚ
deriving DecidableEq, Repr

structure Transaction where
  id : String
  fromAccountId : String
  toAccountId : String
  amount : ℚ
  urgency : Urgency
  status : TxStatus
  basePriority : ℚ
  lockedUntil : Option ℤ
  reservedAt : Option ℤ
  completedAt : Option ℤ
  failureReason : Option String
  createdAt : ℤ
deriving DecidableEq, Repr

structure LedgerEntry where
  accountId : String
  transactionId : String
  entryType : LedgerType
  amount : ℚ
  balanceAfter : ℚ
  description : String
deriving DecidableEq, Repr

/-- The persistent and redis state touched by the core: the Account,
Transaction and LedgerEntry tables, the priority-queue ZSET (scores are
negated effective priorities) and the time-lock ZSET (scores are unlock
times in unix seconds). -/
structure BankState where
  accounts : List Account
  transactions : List Transaction
  ledger : List LedgerEntry
  queue : List (String × ℚ)
  timelock : List (String × ℤ)
deriving Repr

/-- findUnique on a table keyed by a string: first row matching the key. -/
def findBy {α : Type} (key : α → String) (l : List α) (id : String) : Option α :=
  l.find? (fun x => key x == id)

/-- update on a table keyed by a string: rewrite the matching rows. -/
def updateBy {α : Type} (key : α → String) (l : List α) (id : String)
    (g : α → α) : List α :=
  l.map (fun x => if key x == id then g x else x)

def findAccountById (l : List Account) (id : String) : Option Account :=
  findBy Account.id l id

def findAccountByNumber (l : List Account) (n : String) : Option Account :=
  findBy Account.accountNumber l n

def updateAccountById (l : List Account) (id : String) (g : Account → Account) :
    List Account :=
  updateBy Account.id l id g

def findTransactionById (l : List Transaction) (id : String) : Option Transaction :=
  findBy Transaction.id l id

def updateTransactionById (l : List Transaction) (id : String)
    (g : Transaction → Transaction) : List Transaction :=
  updateBy Transaction.id l id g

/-! ### Queue service (src/backend/src/services/queue.service.ts) -/

/-- QueueService.enqueue: ZADD with score = -effectivePriority computed at
call time (the TXN_DATA metadata hash cached next to it carries no extra
information and is not modelled). -/
def enqueue (q : List (String × ℚ)) (transactionId : String)
    (basePriority : ℚ) (createdAt now : ℤ) : List (String × ℚ) :=
  zadd q transactionId (-(calculateEffectivePriority basePriority createdAt now))

/-- QueueService.dequeue: ZREM. -/
def dequeue (q : List (String × ℚ)) (transactionId : String) :
    List (String × ℚ) :=
  zrem q transactionId

/-- QueueService.getTop: ZRANGE 0 (count-1) WITHSCORES, i.e. the first
count members in ascending (score, member) order. -/
def getTop (q : List (String × ℚ)) (count : ℕ) : List (String × ℚ) :=
  (zSorted q).take count

/-! ### Time-lock service (src/backend/src/services/timelock.service.ts) -/

/-- TimelockService.lockTransaction: ZADD the transaction on the time-lock
heap with score floor(unlockTime / 1000) and set the transaction row to
LOCKED with lockedUntil = unlockTime = now + durationSeconds * 1000 ms. -/
def lockTransaction (s : BankState) (transactionId : String)
    (durationSeconds : ℤ) (now : ℤ) : BankState :=
  let unlockTime := now + durationSeconds * 1000
  let score := Int.fdiv unlockTime 1000
  { s with
    timelock := zadd s.timelock transactionId score,
    transactions := updateTransactionById s.transactions transactionId
      (fun tr => { tr with status := .LOCKED, lockedUntil := some unlockTime }) }

/-- TimelockService.cancelLocked: ZREM from the time-lock heap; when the
member was present, set the transaction row to CANCELLED and report true. -/
def cancelLocked (s : BankState) (transactionId : String) : Bool × BankState :=
  let removed := s.timelock.any (fun p => p.1 == transactionId)
  let s1 := { s with timelock := zrem s.timelock transactionId }
  if removed then
    (true,
      { s1 with
        transactions := updateTransactionById s1.transactions transactionId
          (fun tr => { tr with status := .CANCELLED }) })
  else (false, s1)

/-! ### Transaction state machine (src/backend/src/services/transaction.service.ts) -/

/-- TransactionService.reserveFunds: inside one database transaction, check
the status guard, read the source account, compare
balance - reservedAmount - tierReserve against the amount, and either mark
the transaction FAILED (insufficient balance) or increment reservedAmount,
append a RESERVE ledger entry and mark the transaction RESERVED. -/
def reserveFunds (s : BankState) (transactionId : String) (now : ℤ) :
    Bool × BankState :=
  match findTransactionById s.transactions transactionId with
  | none => (false, s)
  | some t =>
    if t.status = TxStatus.QUEUED ∨ t.status = TxStatus.PENDING_MANUAL then
      match findAccountById s.accounts t.fromAccountId with
      | none => (false, s)
      | some fromAccount =>
        let availableBalance := fromAccount.balance - fromAccount.reservedAmount
        let tierReserve := tierReserves fromAccount.tier
        if availableBalance - tierReserve < t.amount then
          (false,
            { s with
              transactions := updateTransactionById s.transactions transactionId
                (fun tr =>
                  { tr with
                    status := .FAILED,
                    failureReason :=
                      some ("Insufficient balance (Minimum balance requirement)") }) })
        else
          (true,
            { s with
              accounts := updateAccountById s.accounts fromAccount.id
                (fun a => { a with reservedAmount := a.reservedAmount + t.amount }),
              ledger := s.ledger ++
                [{ accountId := fromAccount.id,
                   transactionId := transactionId,
                   entryType := .RESERVE,
                   amount := t.amount,
                   balanceAfter := fromAccount.balance,
                   description := "Reserved for transfer to " ++ t.toAccountId }],
              transactions := updateTransactionById s.transactions transactionId
                (fun tr => { tr with status := .RESERVED, reservedAt := some now }) })
    else (false, s)

/-- TransactionService.finalize: inside one database transaction, require
status RESERVED, debit balance and reservedAmount of the source account,
credit the destination account, append paired DEBIT / CREDIT ledger entries
carrying the updated balances, mark the transaction COMPLETED with a
completion timestamp and ZREM it from the priority queue. A failed row
update aborts the database transaction, leaving the state unchanged. -/
def finalize (s : BankState) (transactionId : String) (now : ℤ) :
    Bool × BankState :=
  match findTransactionById s.transactions transactionId with
  | none => (false, s)
  | some t =>
    if t.status = TxStatus.RESERVED then
      match findAccountById s.accounts t.fromAccountId with
      | none => (false, s)
      | some fa =>
        let accounts1 := updateAccountById s.accounts t.fromAccountId
          (fun a =>
            { a with
              balance := a.balance - t.amount,
              reservedAmount := a.reservedAmount - t.amount })
        match findAccountById accounts1 t.toAccountId with
        | none => (false, s)
        | some ta =>
          let accounts2 := updateAccountById accounts1 t.toAccountId
            (fun a => { a with balance := a.balance + t.amount })
          (true,
            { s with
              accounts := accounts2,
              ledger := s.ledger ++
                [{ accountId := t.fromAccountId,
                   transactionId := transactionId,
                   entryType := .DEBIT,
                   amount := t.amount,
                   balanceAfter := fa.balance - t.amount,
                   description := "Transfer to " ++ t.toAccountId },
                 { accountId := t.toAccountId,
                   transactionId := transactionId,
                   entryType := .CREDIT,
                   amount := t.amount,
                   balanceAfter := ta.balance + t.amount,
                   description := "Transfer from " ++ t.fromAccountId }],
              transactions := updateTransactionById s.transactions transactionId
                (fun tr => { tr with status := .COMPLETED, completedAt := some now }),
              queue := zrem s.queue transactionId })
    else (false, s)

/-- TransactionService.rollback: when the transaction exists, release the
reservation if (and only if) the status is RESERVED, then unconditionally
mark the row CANCELLED with the given reason and ZREM it from the priority
queue. There is no terminal-state guard in the source. -/
def rollback (s : BankState) (transactionId : String) (reason : String) :
    Bool × BankState :=
  match findTransactionById s.transactions transactionId with
  | none => (false, s)
  | some t =>
    let step1 : Option BankState :=
      if t.status = TxStatus.RESERVED then
        match findAccountById s.accounts t.fromAccountId with
        | none => none
        | some fa =>
          some
            { s with
              accounts := updateAccountById s.accounts t.fromAccountId
                (fun a => { a with reservedAmount := a.reservedAmount - t.amount }),
              ledger := s.ledger ++
                [{ accountId := t.fromAccountId,
                   transactionId := transactionId,
                   entryType := .RELEASE,
                   amount := t.amount,
                   balanceAfter := fa.balance,
                   description := "Released: " ++ reason }] }
      else some s
    match step1 with
    | none => (false, s)
    | some s1 =>
      (true,
        { s1 with
          transactions := updateTransactionById s1.transactions transactionId
            (fun tr => { tr with status := .CANCELLED, failureReason := some reason }),
          queue := zrem s1.queue transactionId })

/-- The Transaction row prisma.transaction.create inserts: status CREATED,
no timestamps besides createdAt, basePriority precomputed. -/
def newTransaction (newTxId fromAccId toAccId : String) (amount : ℚ)
    (urgency : Urgency) (basePriority : ℚ) (now : ℤ) : Transaction :=
  { id := newTxId,
    fromAccountId := fromAccId,
    toAccountId := toAccId,
    amount := amount,
    urgency := urgency,
    status := .CREATED,
    basePriority := basePriority,
    lockedUntil := none,
    reservedAt := none,
    completedAt := none,
    failureReason := none,
    createdAt := now }

/-- TransactionService.initiateTransfer: look up sender by id and recipient
by account number, refuse self-transfers and transfers past the available
balance, create the transaction row with the computed base priority, then
either time-lock it (amount > timelockThreshold) or mark it QUEUED and
enqueue it. newTxId stands for the database-generated row id. Errors are
thrown in the source; they are returned as none here. -/
def initiateTransfer (s : BankState) (newTxId : String)
    (fromAccountId toAccountNumber : String) (amount : ℚ) (urgency : Urgency)
    (now : ℤ) : Option BankState :=
  match findAccountById s.accounts fromAccountId with
  | none => none
  | some fromAccount =>
    match findAccountByNumber s.accounts toAccountNumber with
    | none => none
    | some toAccount =>
      if fromAccount.id = toAccount.id then none
      else
        let availableBalance := fromAccount.balance - fromAccount.reservedAmount
        let tierReserve := tierReserves fromAccount.tier
        if availableBalance - tierReserve < amount then none
        else
          let basePriority :=
            calculateBasePriority urgency fromAccount.tier fromAccount.riskScore
          let t : Transaction :=
            newTransaction newTxId fromAccount.id toAccount.id amount urgency
              basePriority now
          let s1 := { s with transactions := s.transactions ++ [t] }
          if timelockThreshold < amount then
            some (lockTransaction s1 newTxId timelockSeconds now)
          else
            some
              { s1 with
                transactions := updateTransactionById s1.transactions newTxId
                  (fun tr => { tr with status := .QUEUED }),
                queue := enqueue s1.queue newTxId basePriority now now }

/-! ### Customer cancel route
(src/backend/src/controllers/customer.controller.ts, POST
/api/customer/transactions/:id/cancel) -/

inductive CancelOutcome
  | notFound
  | forbidden
  | invalidState
  | serverError
  | ok
deriving DecidableEq, Repr

/-- The owner-initiated cancel route: require an existing transaction owned
by the caller in status LOCKED, run TimelockService.cancelLocked, then
decrement reservedAmount of the sender account by the transaction amount.
The route runs these steps sequentially, not inside one database
transaction; a missing sender account fails after cancelLocked committed. -/
def customerCancel (s : BankState) (transactionId userId : String) :
    CancelOutcome × BankState :=
  match findTransactionById s.transactions transactionId with
  | none => (.notFound, s)
  | some t =>
    if t.fromAccountId ≠ userId then (.forbidden, s)
    else if t.status ≠ TxStatus.LOCKED then (.invalidState, s)
    else
      let s1 := (cancelLocked s transactionId).2
      match findAccountById s1.accounts t.fromAccountId with
      | none => (.serverError, s1)
      | some _ =>
        (.ok,
          { s1 with
            accounts := updateAccountById s1.accounts t.fromAccountId
              (fun a => { a with reservedAmount := a.reservedAmount - t.amount }) })

/-! ### Concrete fixtures used by witnesses and counterexamples -/

def accA : Account :=
  { id := "A", accountNumber := "1001", balance := 1000, reservedAmount := 0,
    tier := .BASIC, riskScore := 0 }

def accB : Account :=
  { id := "B", accountNumber := "1002", balance := 500, reservedAmount := 0,
    tier := .BASIC, riskScore := 0 }

def accRich : Account :=
  { id := "A", accountNumber := "1001", balance := 20000, reservedAmount := 0,
    tier := .BASIC, riskScore := 0 }

def txQueued : Transaction :=
  { id := "t1", fromAccountId := "A", toAccountId := "B", amount := 500,
    urgency := .NORMAL, status := .QUEUED, basePriority := 2,
    lockedUntil := none, reservedAt := none, completedAt := none,
    failureReason := none, createdAt := 0 }

def txReserved : Transaction :=
  { txQueued with status := .RESERVED, reservedAt := some 0 }

def txCompleted : Transaction :=
  { txQueued with status := .COMPLETED, completedAt := some 0 }

def txLocked : Transaction :=
  { id := "t1", fromAccountId := "A", toAccountId := "B", amount := 15000,
    urgency := .NORMAL, status := .LOCKED, basePriority := 2,
    lockedUntil := some 30000, reservedAt := none, completedAt := none,
    failureReason := none, createdAt := 0 }

def stQueued : BankState :=
  { accounts := [accA, accB], transactions := [txQueued], ledger := [],
    queue := [("t1", -2)], timelock := [] }

def stReserved : BankState :=
  { accounts := [{ accA with reservedAmount := 500 }, accB],
    transactions := [txReserved], ledger := [], queue := [], timelock := [] }

def stCompleted : BankState :=
  { accounts := [accA, accB], transactions := [txCompleted], ledger := [],
    queue := [], timelock := [] }

def stLocked : BankState :=
  { accounts := [accRich, accB], transactions := [txLocked], ledger := [],
    queue := [], timelock := [("t1", 30)] }

def stFresh : BankState :=
  { accounts := [accRich, accB], transactions := [], ledger := [],
    queue := [], timelock := [] }

/-- Two queued members whose effective priorities coincide although member b
was created 10 seconds before member a. -/
def qTie : List (String × ℚ) :=
  enqueue (enqueue [] "b" 4 0 10000) "a" 5 10000 10000

/-- A two-member queue with equal scores, stored with the byte-larger member
first. -/
def qW : List (String × ℚ) :=
  [("b", -5), ("a", -5)]

/-! ### Lookup lemmas for the table model -/

theorem findBy_updateBy_self {α : Type} (key : α → String) (l : List α)
    (id : String) (g : α → α) (hg : ∀ x, key (g x) = key x) (x : α)
    (h : findBy key l id = some x) :
    findBy key (updateBy key l id g) id = some (g x) := by
  induction l with
  | nil => simp [findBy] at h
  | cons y ys ih =>
    by_cases hy : key y = id
    · have hb : (key y == id) = true := beq_iff_eq.mpr hy
      have hb2 : (key (g y) == id) = true := by rw [hg y]; exact hb
      simp only [findBy, List.find?_cons, hb] at h
      have hxy : y = x := Option.some.inj h
      subst hxy
      simp only [findBy, updateBy, List.map_cons]
      rw [if_pos hb, List.find?_cons, hb2]
    · have hb : (key y == id) = false := beq_eq_false_iff_ne.mpr hy
      simp only [findBy, List.find?_cons, hb] at h
      have hrec := ih h
      simp only [findBy, updateBy] at hrec
      simp only [findBy, updateBy, List.map_cons]
      rw [if_neg (by simp [hb]), List.find?_cons, hb]
      exact hrec

theorem findBy_updateBy_ne {α : Type} (key : α → String) (l : List α)
    (id id' : String) (g : α → α) (hg : ∀ x, key (g x) = key x)
    (hne : id' ≠ id) :
    findBy key (updateBy key l id g) id' = findBy key l id' := by
  induction l with
  | nil => simp [findBy, updateBy]
  | cons y ys ih =>
    by_cases hy : key y = id
    · have hb : (key y == id) = true := beq_iff_eq.mpr hy
      have hb' : (key y == id') = false := by
        refine beq_eq_false_iff_ne.mpr ?_
        rw [hy]
        exact fun h => hne h.symm
      have hb2 : (key (g y) == id') = false := by rw [hg y]; exact hb'
      have ih' := ih
      simp only [findBy, updateBy] at ih'
      simp only [findBy, updateBy, List.map_cons]
      rw [if_pos hb, List.find?_cons, hb2, List.find?_cons, hb']
      exact ih'
    · have hb : (key y == id) = false := beq_eq_false_iff_ne.mpr hy
      by_cases hy' : key y = id'
      · have hb' : (key y == id') = true := beq_iff_eq.mpr hy'
        simp only [findBy, updateBy, List.map_cons]
        rw [if_neg (by simp [hb]), List.find?_cons, hb', List.find?_cons, hb']
      · have hb' : (key y == id') = false := beq_eq_false_iff_ne.mpr hy'
        have ih' := ih
        simp only [findBy, updateBy] at ih'
        simp only [findBy, updateBy, List.map_cons]
        rw [if_neg (by simp [hb]), List.find?_cons, hb', List.find?_cons, hb']
        exact ih'

theorem findBy_append_single {α : Type} (key : α → String) (l : List α)
    (x : α) (id : String) (h : findBy key l id = none) :
    findBy key (l ++ [x]) id = if key x = id then some x else none := by
  have hsplit : findBy key (l ++ [x]) id = findBy key [x] id := by
    simp only [findBy] at h ⊢
    simp [List.find?_append, h]
  rw [hsplit]
  by_cases hx : key x = id
  · simp [findBy, List.find?_cons, beq_iff_eq.mpr hx, hx]
  · simp [findBy, List.find?_cons, beq_eq_false_iff_ne.mpr hx, hx]

theorem findBy_key_eq {α : Type} (key : α → String) (l : List α)
    (id : String) (x : α) (h : findBy key l id = some x) : key x = id := by
  have hp := List.find?_some h
  exact beq_iff_eq.mp hp

/-! ### Claim C9 -/

/-- Claim C9: the base priority equals
urgencyWeight(urgency) * 2.0 + tierWeight(tier) * 1.5 - risk * 0.5 with the
weight tables Normal 1, EMI 3, Medical 5 and Basic 0, Premium 2, VIP 4; it
is monotonically increasing in the urgency weight and the tier weight and
monotonically decreasing in the risk score. -/
theorem basePriority_formula_and_monotone :
    (∀ u t (r : ℚ), calculateBasePriority u t r =
        urgencyWeights u * 2 + tierWeights t * (3 / 2) - r * (1 / 2)) ∧
    urgencyWeights .NORMAL = 1 ∧ urgencyWeights .EMI = 3 ∧
    urgencyWeights .MEDICAL = 5 ∧
    tierWeights .BASIC = 0 ∧ tierWeights .PREMIUM = 2 ∧ tierWeights .VIP = 4 ∧
    (∀ u₁ u₂ t (r : ℚ), urgencyWeights u₁ ≤ urgencyWeights u₂ →
        calculateBasePriority u₁ t r ≤ calculateBasePriority u₂ t r) ∧
    (∀ u t₁ t₂ (r : ℚ), tierWeights t₁ ≤ tierWeights t₂ →
        calculateBasePriority u t₁ r ≤ calculateBasePriority u t₂ r) ∧
    (∀ u t (r₁ r₂ : ℚ), r₁ ≤ r₂ →
        calculateBasePriority u t r₂ ≤ calculateBasePriority u t r₁) := by
  refine ⟨fun u t r => rfl, rfl, rfl, rfl, rfl, rfl, rfl, ?_, ?_, ?_⟩
  · intro u₁ u₂ t r h
    unfold calculateBasePriority
    linarith
  · intro u t₁ t₂ r h
    unfold calculateBasePriority
    linarith
  · intro u t r₁ r₂ h
    unfold calculateBasePriority
    linarith

/-- Witness for C9: the three monotonicity parts applied at concrete
urgencies, tiers and risk scores. -/
theorem basePriority_formula_and_monotone_witness :
    calculateBasePriority .NORMAL .BASIC 2 ≤
      calculateBasePriority .MEDICAL .BASIC 2 ∧
    calculateBasePriority .NORMAL .BASIC 2 ≤
      calculateBasePriority .NORMAL .VIP 2 ∧
    calculateBasePriority .NORMAL .BASIC 5 ≤
      calculateBasePriority .NORMAL .BASIC 2 :=
  ⟨basePriority_formula_and_monotone.2.2.2.2.2.2.2.1 .NORMAL .MEDICAL .BASIC 2
      (by norm_num [urgencyWeights]),
   basePriority_formula_and_monotone.2.2.2.2.2.2.2.2.1 .NORMAL .BASIC .VIP 2
      (by norm_num [tierWeights]),
   basePriority_formula_and_monotone.2.2.2.2.2.2.2.2.2 .NORMAL .BASIC 2 5
      (by norm_num)⟩

/-! ### Claim C8 (corrected: the aging term floors the wait to whole
seconds, so effectivePriority is not strictly increasing in the raw wait
time; it is nondecreasing, and strictly increasing in the floored wait
seconds) -/

/-- Counterexample to C8 as stated: with basePriority 5 and creation time 0,
a wait of 500 ms is strictly longer than a wait of 0 ms, yet the effective
priority is unchanged, because waitSeconds floors the wait to whole
seconds. -/
theorem effectivePriority_not_strict_counterexample :
    (0 : ℤ) - 0 < 500 - 0 ∧
    calculateEffectivePriority 5 0 500 = calculateEffectivePriority 5 0 0 := by
  constructor
  · norm_num
  · have h1 : waitSeconds 0 500 = 0 := by decide
    have h2 : waitSeconds 0 0 = 0 := by decide
    rw [calculateEffectivePriority, calculateEffectivePriority, h1, h2]

/-- Claim C8 amended: for now at or after createdAt the effective priority
is at least the base priority; it is nondecreasing in the observation time,
and strictly increasing in the floored wait seconds (so it grows strictly
whenever the wait crosses a whole-second boundary). -/
theorem effectivePriority_ge_base_and_monotone (basePriority : ℚ)
    (createdAt now now₁ now₂ : ℤ) (h : createdAt ≤ now) (h12 : now₁ ≤ now₂) :
    basePriority ≤ calculateEffectivePriority basePriority createdAt now ∧
    calculateEffectivePriority basePriority createdAt now₁ ≤
      calculateEffectivePriority basePriority createdAt now₂ ∧
    (waitSeconds createdAt now₁ < waitSeconds createdAt now₂ →
      calculateEffectivePriority basePriority createdAt now₁ <
        calculateEffectivePriority basePriority createdAt now₂) := by
  refine ⟨?_, ?_, ?_⟩
  · have hw : (0 : ℤ) ≤ waitSeconds createdAt now :=
      Int.fdiv_nonneg (by omega) (by norm_num)
    have hwq : (0 : ℚ) ≤ ((waitSeconds createdAt now : ℤ) : ℚ) := by
      exact_mod_cast hw
    unfold calculateEffectivePriority agingFactor
    nlinarith
  · have hw : waitSeconds createdAt now₁ ≤ waitSeconds createdAt now₂ := by
      unfold waitSeconds
      rw [Int.fdiv_eq_ediv _ (by norm_num), Int.fdiv_eq_ediv _ (by norm_num)]
      exact Int.ediv_le_ediv (by norm_num) (by omega)
    have hwq : ((waitSeconds createdAt now₁ : ℤ) : ℚ) ≤
        ((waitSeconds createdAt now₂ : ℤ) : ℚ) := by exact_mod_cast hw
    unfold calculateEffectivePriority agingFactor
    nlinarith
  · intro hlt
    have hwq : ((waitSeconds createdAt now₁ : ℤ) : ℚ) <
        ((waitSeconds createdAt now₂ : ℤ) : ℚ) := by exact_mod_cast hlt
    unfold calculateEffectivePriority agingFactor
    nlinarith

/-- Witness for the amended C8 at basePriority 5, createdAt 0, with
observation times 1000, 0 and 2000 ms. -/
theorem effectivePriority_monotone_witness :
    (5 : ℚ) ≤ calculateEffectivePriority 5 0 1000 ∧
    calculateEffectivePriority 5 0 0 ≤ calculateEffectivePriority 5 0 2000 ∧
    calculateEffectivePriority 5 0 0 < calculateEffectivePriority 5 0 2000 :=
  have h := effectivePriority_ge_base_and_monotone 5 0 1000 0 2000
    (by norm_num) (by norm_num)
  ⟨h.1, h.2.1, h.2.2 (by decide)⟩

/-! ### Claim C1 -/

/-- Claim C1: for a transaction in status QUEUED or PENDING_MANUAL whose
source account exists, reserveFunds computes
available = balance - reservedAmount - tierReserve(tier); when
available < amount it reports failure, marks the transaction FAILED with the
insufficient-balance reason and leaves accounts, ledger and queue unchanged;
otherwise it reports success, increments reservedAmount of the source
account by exactly amount, appends one RESERVE ledger entry and marks the
transaction RESERVED with a reservation timestamp. -/
theorem reserveFunds_spec (s : BankState) (txId : String) (now : ℤ)
    (t : Transaction) (acc : Account)
    (ht : findTransactionById s.transactions txId = some t)
    (hst : t.status = TxStatus.QUEUED ∨ t.status = TxStatus.PENDING_MANUAL)
    (ha : findAccountById s.accounts t.fromAccountId = some acc) :
    (acc.balance - acc.reservedAmount - tierReserves acc.tier < t.amount →
      (reserveFunds s txId now).1 = false ∧
      (reserveFunds s txId now).2.accounts = s.accounts ∧
      (reserveFunds s txId now).2.ledger = s.ledger ∧
      (reserveFunds s txId now).2.queue = s.queue ∧
      findTransactionById (reserveFunds s txId now).2.transactions txId =
        some { t with
               status := .FAILED,
               failureReason :=
                 some ("Insufficient balance (Minimum balance requirement)") }) ∧
    (¬(acc.balance - acc.reservedAmount - tierReserves acc.tier < t.amount) →
      (reserveFunds s txId now).1 = true ∧
      findAccountById (reserveFunds s txId now).2.accounts t.fromAccountId =
        some { acc with reservedAmount := acc.reservedAmount + t.amount } ∧
      (reserveFunds s txId now).2.ledger = s.ledger ++
        [{ accountId := acc.id, transactionId := txId, entryType := .RESERVE,
           amount := t.amount, balanceAfter := acc.balance,
           description := "Reserved for transfer to " ++ t.toAccountId }] ∧
      findTransactionById (reserveFunds s txId now).2.transactions txId =
        some { t with status := .RESERVED, reservedAt := some now }) := by
  constructor
  · intro hlt
    have hrw : reserveFunds s txId now =
        (false,
          { s with
            transactions := updateTransactionById s.transactions txId
              (fun tr =>
                { tr with
                  status := .FAILED,
                  failureReason :=
                    some ("Insufficient balance (Minimum balance requirement)") }) }) := by
      simp only [reserveFunds, ht, ha]
      rw [if_pos hst, if_pos hlt]
    rw [hrw]
    refine ⟨rfl, rfl, rfl, rfl, ?_⟩
    exact findBy_updateBy_self Transaction.id s.transactions txId
      (fun tr =>
        { tr with
          status := .FAILED,
          failureReason :=
            some ("Insufficient balance (Minimum balance requirement)") })
      (fun _ => rfl) t ht
  · intro hge
    have hrw : reserveFunds s txId now =
        (true,
          { s with
            accounts := updateAccountById s.accounts acc.id
              (fun a => { a with reservedAmount := a.reservedAmount + t.amount }),
            ledger := s.ledger ++
              [{ accountId := acc.id, transactionId := txId,
                 entryType := .RESERVE, amount := t.amount,
                 balanceAfter := acc.balance,
                 description := "Reserved for transfer to " ++ t.toAccountId }],
            transactions := updateTransactionById s.transactions txId
              (fun tr => { tr with status := .RESERVED, reservedAt := some now }) }) := by
      simp only [reserveFunds, ht, ha]
      rw [if_pos hst, if_neg hge]
    rw [hrw]
    refine ⟨rfl, ?_, rfl, ?_⟩
    · have hid : acc.id = t.fromAccountId :=
        findBy_key_eq Account.id s.accounts _ acc ha
      have ha' : findAccountById s.accounts acc.id = some acc := by
        rw [hid]; exact ha
      rw [← hid]
      exact findBy_updateBy_self Account.id s.accounts acc.id
        (fun a => { a with reservedAmount := a.reservedAmount + t.amount })
        (fun _ => rfl) acc ha'
    · exact findBy_updateBy_self Transaction.id s.transactions txId
        (fun tr => { tr with status := .RESERVED, reservedAt := some now })
        (fun _ => rfl) t ht

/-- Witness for C1: the success branch on a Basic account with balance 1000,
reservedAmount 0 and a queued transfer of 500 (available 900 at least 500). -/
theorem reserveFunds_spec_witness :
    (reserveFunds stQueued "t1" 0).1 = true ∧
    findAccountById (reserveFunds stQueued "t1" 0).2.accounts
        txQueued.fromAccountId =
      some { accA with reservedAmount := accA.reservedAmount + txQueued.amount } ∧
    (reserveFunds stQueued "t1" 0).2.ledger = stQueued.ledger ++
      [{ accountId := accA.id, transactionId := "t1", entryType := .RESERVE,
         amount := txQueued.amount, balanceAfter := accA.balance,
         description := "Reserved for transfer to " ++ txQueued.toAccountId }] ∧
    findTransactionById (reserveFunds stQueued "t1" 0).2.transactions "t1" =
      some { txQueued with status := .RESERVED, reservedAt := some 0 } :=
  (reserveFunds_spec stQueued "t1" 0 txQueued accA rfl (Or.inl rfl) rfl).2
    (by norm_num [accA, txQueued, tierReserves])

/-! ### Finalize helpers -/

/-- Characterization of a successful finalize on a RESERVED transaction
between two existing, distinct accounts. -/
theorem finalize_success_state (s : BankState) (txId : String) (now : ℤ)
    (t : Transaction) (fa ta : Account)
    (ht : findTransactionById s.transactions txId = some t)
    (hst : t.status = TxStatus.RESERVED)
    (hne : t.fromAccountId ≠ t.toAccountId)
    (hfa : findAccountById s.accounts t.fromAccountId = some fa)
    (hta : findAccountById s.accounts t.toAccountId = some ta) :
    finalize s txId now =
      (true,
        { s with
          accounts := updateAccountById
            (updateAccountById s.accounts t.fromAccountId
              (fun a =>
                { a with
                  balance := a.balance - t.amount,
                  reservedAmount := a.reservedAmount - t.amount }))
            t.toAccountId
            (fun a => { a with balance := a.balance + t.amount }),
          ledger := s.ledger ++
            [{ accountId := t.fromAccountId, transactionId := txId,
               entryType := .DEBIT, amount := t.amount,
               balanceAfter := fa.balance - t.amount,
               description := "Transfer to " ++ t.toAccountId },
             { accountId := t.toAccountId, transactionId := txId,
               entryType := .CREDIT, amount := t.amount,
               balanceAfter := ta.balance + t.amount,
               description := "Transfer from " ++ t.fromAccountId }],
          transactions := updateTransactionById s.transactions txId
            (fun tr => { tr with status := .COMPLETED, completedAt := some now }),
          queue := zrem s.queue txId }) := by
  have hta1 : findAccountById
      (updateAccountById s.accounts t.fromAccountId
        (fun a =>
          { a with
            balance := a.balance - t.amount,
            reservedAmount := a.reservedAmount - t.amount }))
      t.toAccountId = some ta := by
    exact (findBy_updateBy_ne Account.id s.accounts t.fromAccountId t.toAccountId
      (fun a =>
        { a with
          balance := a.balance - t.amount,
          reservedAmount := a.reservedAmount - t.amount })
      (fun _ => rfl) (fun h => hne h.symm)).trans hta
  simp only [finalize, ht, hfa]
  rw [if_pos hst, hta1]

/-- finalize refuses any transaction that does not exist or is not in
status RESERVED, leaving the state untouched. -/
theorem finalize_not_reserved (s : BankState) (txId : String) (now : ℤ)
    (h : ∀ t, findTransactionById s.transactions txId = some t →
      t.status ≠ TxStatus.RESERVED) :
    finalize s txId now = (false, s) := by
  cases hft : findTransactionById s.transactions txId with
  | none => simp only [finalize, hft]
  | some t =>
    simp only [finalize, hft]
    rw [if_neg (h t hft)]

/-! ### Claim C4 -/

/-- Claim C4: finalizing a RESERVED transaction between existing, distinct
accounts succeeds, decrements balance and reservedAmount of the source
account by exactly amount, increments the balance of the destination
account by exactly amount, appends one DEBIT and one CREDIT ledger entry,
marks the transaction COMPLETED with a completion timestamp, and removes
the id from the priority queue, a no-op when it is already absent. -/
theorem finalize_spec (s : BankState) (txId : String) (now : ℤ)
    (t : Transaction) (fa ta : Account)
    (ht : findTransactionById s.transactions txId = some t)
    (hst : t.status = TxStatus.RESERVED)
    (hne : t.fromAccountId ≠ t.toAccountId)
    (hfa : findAccountById s.accounts t.fromAccountId = some fa)
    (hta : findAccountById s.accounts t.toAccountId = some ta) :
    (finalize s txId now).1 = true ∧
    findAccountById (finalize s txId now).2.accounts t.fromAccountId =
      some { fa with
             balance := fa.balance - t.amount,
             reservedAmount := fa.reservedAmount - t.amount } ∧
    findAccountById (finalize s txId now).2.accounts t.toAccountId =
      some { ta with balance := ta.balance + t.amount } ∧
    (finalize s txId now).2.ledger = s.ledger ++
      [{ accountId := t.fromAccountId, transactionId := txId,
         entryType := .DEBIT, amount := t.amount,
         balanceAfter := fa.balance - t.amount,
         description := "Transfer to " ++ t.toAccountId },
       { accountId := t.toAccountId, transactionId := txId,
         entryType := .CREDIT, amount := t.amount,
         balanceAfter := ta.balance + t.amount,
         description := "Transfer from " ++ t.fromAccountId }] ∧
    findTransactionById (finalize s txId now).2.transactions txId =
      some { t with status := .COMPLETED, completedAt := some now } ∧
    (finalize s txId now).2.queue = zrem s.queue txId ∧
    ((∀ p ∈ s.queue, p.1 ≠ txId) → (finalize s txId now).2.queue = s.queue) := by
  have hta1 : findAccountById
      (updateAccountById s.accounts t.fromAccountId
        (fun a =>
          { a with
            balance := a.balance - t.amount,
            reservedAmount := a.reservedAmount - t.amount }))
      t.toAccountId = some ta := by
    exact (findBy_updateBy_ne Account.id s.accounts t.fromAccountId t.toAccountId
      (fun a =>
        { a with
          balance := a.balance - t.amount,
          reservedAmount := a.reservedAmount - t.amount })
      (fun _ => rfl) (fun h => hne h.symm)).trans hta
  rw [finalize_success_state s txId now t fa ta ht hst hne hfa hta]
  refine ⟨rfl, ?_, ?_, rfl, ?_, rfl, ?_⟩
  · exact (findBy_updateBy_ne Account.id
      (updateAccountById s.accounts t.fromAccountId
        (fun a =>
          { a with
            balance := a.balance - t.amount,
            reservedAmount := a.reservedAmount - t.amount }))
      t.toAccountId t.fromAccountId
      (fun a => { a with balance := a.balance + t.amount })
      (fun _ => rfl) hne).trans
      (findBy_updateBy_self Account.id s.accounts t.fromAccountId
        (fun a =>
          { a with
            balance := a.balance - t.amount,
            reservedAmount := a.reservedAmount - t.amount })
        (fun _ => rfl) fa hfa)
  · exact findBy_updateBy_self Account.id _ t.toAccountId
      (fun a => { a with balance := a.balance + t.amount })
      (fun _ => rfl) ta hta1
  · exact findBy_updateBy_self Transaction.id s.transactions txId
      (fun tr => { tr with status := .COMPLETED, completedAt := some now })
      (fun _ => rfl) t ht
  · intro hq
    refine List.filter_eq_self.mpr ?_
    intro p hp
    simp [hq p hp]

/-- Witness for C4: finalizing the reserved 500 transfer from account A
(balance 1000, reservedAmount 500) to account B (balance 500). -/
theorem finalize_spec_witness :
    (finalize stReserved "t1" 7).1 = true ∧
    findAccountById (finalize stReserved "t1" 7).2.accounts
        txReserved.fromAccountId =
      some { { accA with reservedAmount := 500 } with
             balance := accA.balance - txReserved.amount,
             reservedAmount := (500 : ℚ) - txReserved.amount } ∧
    findAccountById (finalize stReserved "t1" 7).2.accounts
        txReserved.toAccountId =
      some { accB with balance := accB.balance + txReserved.amount } ∧
    (finalize stReserved "t1" 7).2.ledger = stReserved.ledger ++
      [{ accountId := txReserved.fromAccountId, transactionId := "t1",
         entryType := .DEBIT, amount := txReserved.amount,
         balanceAfter := accA.balance - txReserved.amount,
         description := "Transfer to " ++ txReserved.toAccountId },
       { accountId := txReserved.toAccountId, transactionId := "t1",
         entryType := .CREDIT, amount := txReserved.amount,
         balanceAfter := accB.balance + txReserved.amount,
         description := "Transfer from " ++ txReserved.fromAccountId }] ∧
    findTransactionById (finalize stReserved "t1" 7).2.transactions "t1" =
      some { txReserved with status := .COMPLETED, completedAt := some 7 } ∧
    (finalize stReserved "t1" 7).2.queue = zrem stReserved.queue "t1" ∧
    ((∀ p ∈ stReserved.queue, p.1 ≠ "t1") →
      (finalize stReserved "t1" 7).2.queue = stReserved.queue) :=
  finalize_spec stReserved "t1" 7 txReserved
    { accA with reservedAmount := 500 } accB rfl rfl (by decide) rfl rfl

/-! ### Claim C5 -/

/-- Claim C5: finalize fails and changes nothing whenever the transaction is
not in status RESERVED (in particular when it is already COMPLETED), and a
second finalize directly after a successful one fails and changes nothing,
so the source account is never debited twice. -/
theorem finalize_idempotent (s : BankState) (txId : String) (now now₂ : ℤ) :
    ((∀ t, findTransactionById s.transactions txId = some t →
        t.status ≠ TxStatus.RESERVED) → finalize s txId now = (false, s)) ∧
    (∀ s', finalize s txId now = (true, s') →
      finalize s' txId now₂ = (false, s')) := by
  constructor
  · exact finalize_not_reserved s txId now
  · intro s' hsucc
    cases hft : findTransactionById s.transactions txId with
    | none =>
      simp only [finalize, hft] at hsucc
      simp at hsucc
    | some t =>
      by_cases hst : t.status = TxStatus.RESERVED
      · cases hfa : findAccountById s.accounts t.fromAccountId with
        | none =>
          simp only [finalize, hft, hfa] at hsucc
          rw [if_pos hst] at hsucc
          simp at hsucc
        | some fa =>
          cases hta : findAccountById
              (updateAccountById s.accounts t.fromAccountId
                (fun a =>
                  { a with
                    balance := a.balance - t.amount,
                    reservedAmount := a.reservedAmount - t.amount }))
              t.toAccountId with
          | none =>
            simp only [finalize, hft, hfa] at hsucc
            rw [if_pos hst, hta] at hsucc
            simp at hsucc
          | some ta =>
            simp only [finalize, hft, hfa] at hsucc
            rw [if_pos hst, hta] at hsucc
            have hs' := congrArg Prod.snd hsucc
            simp only at hs'
            subst hs'
            refine finalize_not_reserved _ txId now₂ ?_
            intro t' ht'
            have htx : findTransactionById
                (updateTransactionById s.transactions txId
                  (fun tr =>
                    { tr with status := .COMPLETED, completedAt := some now })) txId =
                some { t with status := .COMPLETED, completedAt := some now } :=
              findBy_updateBy_self Transaction.id s.transactions txId
                (fun tr => { tr with status := .COMPLETED, completedAt := some now })
                (fun _ => rfl) t hft
            rw [htx] at ht'
            have : { t with status := TxStatus.COMPLETED, completedAt := some now } = t' :=
              Option.some.inj ht'
            rw [← this]
            simp
      · simp only [finalize, hft] at hsucc
        rw [if_neg hst] at hsucc
        simp at hsucc

/-- Witness for C5: finalize on an already COMPLETED transaction fails and
returns the state unchanged. -/
theorem finalize_idempotent_witness :
    finalize stCompleted "t1" 5 = (false, stCompleted) :=
  (finalize_idempotent stCompleted "t1" 5 5).1
    (fun t h => by
      have h' : some txCompleted = some t := h
      cases h'
      decide)

/-! ### Claim C10 -/

/-- Claim C10: a successful finalize between two distinct existing accounts
conserves the total amount of money: the sum of both balances after equals
the sum before, exactly amount having moved from source to destination. -/
theorem finalize_conserves_total (s : BankState) (txId : String) (now : ℤ)
    (t : Transaction) (fa ta : Account)
    (ht : findTransactionById s.transactions txId = some t)
    (hst : t.status = TxStatus.RESERVED)
    (hne : t.fromAccountId ≠ t.toAccountId)
    (hfa : findAccountById s.accounts t.fromAccountId = some fa)
    (hta : findAccountById s.accounts t.toAccountId = some ta) :
    (finalize s txId now).1 = true ∧
    ∃ fa2 ta2,
      findAccountById (finalize s txId now).2.accounts t.fromAccountId = some fa2 ∧
      findAccountById (finalize s txId now).2.accounts t.toAccountId = some ta2 ∧
      fa2.balance + ta2.balance = fa.balance + ta.balance := by
  have hta1 : findAccountById
      (updateAccountById s.accounts t.fromAccountId
        (fun a =>
          { a with
            balance := a.balance - t.amount,
            reservedAmount := a.reservedAmount - t.amount }))
      t.toAccountId = some ta := by
    exact (findBy_updateBy_ne Account.id s.accounts t.fromAccountId t.toAccountId
      (fun a =>
        { a with
          balance := a.balance - t.amount,
          reservedAmount := a.reservedAmount - t.amount })
      (fun _ => rfl) (fun h => hne h.symm)).trans hta
  rw [finalize_success_state s txId now t fa ta ht hst hne hfa hta]
  refine ⟨rfl,
    { fa with
      balance := fa.balance - t.amount,
      reservedAmount := fa.reservedAmount - t.amount },
    { ta with balance := ta.balance + t.amount }, ?_, ?_, ?_⟩
  · exact (findBy_updateBy_ne Account.id
      (updateAccountById s.accounts t.fromAccountId
        (fun a =>
          { a with
            balance := a.balance - t.amount,
            reservedAmount := a.reservedAmount - t.amount }))
      t.toAccountId t.fromAccountId
      (fun a => { a with balance := a.balance + t.amount })
      (fun _ => rfl) hne).trans
      (findBy_updateBy_self Account.id s.accounts t.fromAccountId
        (fun a =>
          { a with
            balance := a.balance - t.amount,
            reservedAmount := a.reservedAmount - t.amount })
        (fun _ => rfl) fa hfa)
  · exact findBy_updateBy_self Account.id _ t.toAccountId
      (fun a => { a with balance := a.balance + t.amount })
      (fun _ => rfl) ta hta1
  · ring

/-- Witness for C10 on the reserved 500 transfer: 500 + 1000 = 1500 both
before and after. -/
theorem finalize_conserves_total_witness :
    (finalize stReserved "t1" 7).1 = true ∧
    ∃ fa2 ta2,
      findAccountById (finalize stReserved "t1" 7).2.accounts
        txReserved.fromAccountId = some fa2 ∧
      findAccountById (finalize stReserved "t1" 7).2.accounts
        txReserved.toAccountId = some ta2 ∧
      fa2.balance + ta2.balance =
        Account.balance { accA with reservedAmount := 500 } + accB.balance :=
  finalize_conserves_total stReserved "t1" 7 txReserved
    { accA with reservedAmount := 500 } accB rfl rfl (by decide) rfl rfl

/-! ### Sorted-set order lemmas -/

theorem charListLtb_asymm : ∀ as bs, charListLtb as bs = true →
    charListLtb bs as = false := by
  intro as
  induction as with
  | nil =>
    intro bs h
    cases bs with
    | nil => simp [charListLtb] at h
    | cons b bs => simp [charListLtb]
  | cons a as ih =>
    intro bs h
    cases bs with
    | nil => simp [charListLtb] at h
    | cons b bs =>
      simp only [charListLtb] at h ⊢
      by_cases hab : a.val.toNat < b.val.toNat
      · rw [if_neg (by omega : ¬ b.val.toNat < a.val.toNat), if_pos hab]
      · rw [if_neg hab] at h
        by_cases hba : b.val.toNat < a.val.toNat
        · rw [if_pos hba] at h
          exact absurd h (by simp)
        · rw [if_neg hba] at h
          rw [if_neg hba, if_neg hab]
          exact ih bs h

theorem charListLtb_negtrans : ∀ as bs cs, charListLtb as bs = false →
    charListLtb bs cs = false → charListLtb as cs = false := by
  intro as
  induction as with
  | nil =>
    intro bs cs h1 h2
    cases bs with
    | nil =>
      cases cs with
      | nil => rfl
      | cons c cs => exact absurd h2 (by simp [charListLtb])
    | cons b bs => exact absurd h1 (by simp [charListLtb])
  | cons a as ih =>
    intro bs cs h1 h2
    cases bs with
    | nil =>
      cases cs with
      | nil => rfl
      | cons c cs => exact absurd h2 (by simp [charListLtb])
    | cons b bs =>
      cases cs with
      | nil => rfl
      | cons c cs =>
        simp only [charListLtb] at h1 h2 ⊢
        by_cases hab : a.val.toNat < b.val.toNat
        · rw [if_pos hab] at h1
          exact absurd h1 (by simp)
        · rw [if_neg hab] at h1
          by_cases hbc : b.val.toNat < c.val.toNat
          · rw [if_pos hbc] at h2
            exact absurd h2 (by simp)
          · rw [if_neg hbc] at h2
            have hac : ¬ a.val.toNat < c.val.toNat := by omega
            rw [if_neg hac]
            by_cases hba : b.val.toNat < a.val.toNat
            · have hca : c.val.toNat < a.val.toNat := by omega
              rw [if_pos hca]
            · by_cases hcb : c.val.toNat < b.val.toNat
              · have hca : c.val.toNat < a.val.toNat := by omega
                rw [if_pos hca]
              · rw [if_neg hba] at h1
                rw [if_neg hcb] at h2
                by_cases hca : c.val.toNat < a.val.toNat
                · rw [if_pos hca]
                · rw [if_neg hca]
                  exact ih bs cs h1 h2

theorem memLtb_asymm (a b : String) (h : memLtb a b = true) :
    memLtb b a = false :=
  charListLtb_asymm _ _ h

theorem memLtb_negtrans (a b c : String) (h1 : memLtb a b = false)
    (h2 : memLtb b c = false) : memLtb a c = false :=
  charListLtb_negtrans _ _ _ h1 h2

theorem zBefore_total (x y : String × ℚ) (h : ¬ zBefore x y) : zBefore y x := by
  unfold zBefore at h ⊢
  push_neg at h
  obtain ⟨h1, h2⟩ := h
  by_cases he : x.2 = y.2
  · right
    refine ⟨he.symm, ?_⟩
    have hm : memLtb y.1 x.1 = true := by
      cases hmv : memLtb y.1 x.1 with
      | true => rfl
      | false => exact absurd hmv (h2 he)
    exact memLtb_asymm _ _ hm
  · left
    exact lt_of_le_of_ne h1 (fun hc => he hc.symm)

theorem zBefore_trans (x y z : String × ℚ) (h1 : zBefore x y)
    (h2 : zBefore y z) : zBefore x z := by
  unfold zBefore at h1 h2 ⊢
  rcases h1 with h1 | ⟨he1, hm1⟩
  · rcases h2 with h2 | ⟨he2, hm2⟩
    · exact Or.inl (h1.trans h2)
    · exact Or.inl (lt_of_lt_of_eq h1 he2)
  · rcases h2 with h2 | ⟨he2, hm2⟩
    · exact Or.inl (lt_of_eq_of_lt he1 h2)
    · exact Or.inr ⟨he1.trans he2, memLtb_negtrans _ _ _ hm2 hm1⟩

theorem mem_zInsert (x : String × ℚ) (l : List (String × ℚ)) (a : String × ℚ) :
    a ∈ zInsert x l ↔ a = x ∨ a ∈ l := by
  induction l with
  | nil => simp [zInsert]
  | cons y ys ih =>
    unfold zInsert
    by_cases h : zBefore x y
    · rw [if_pos h]
      simp only [List.mem_cons]
    · rw [if_neg h]
      simp only [List.mem_cons, ih]
      tauto

theorem pairwise_zInsert (x : String × ℚ) (l : List (String × ℚ))
    (hp : l.Pairwise zBefore) : (zInsert x l).Pairwise zBefore := by
  induction l with
  | nil => simp [zInsert]
  | cons y ys ih =>
    unfold zInsert
    by_cases h : zBefore x y
    · rw [if_pos h]
      refine List.Pairwise.cons ?_ hp
      intro z hz
      rcases List.mem_cons.mp hz with rfl | hz'
      · exact h
      · exact zBefore_trans x y z h ((List.pairwise_cons.mp hp).1 z hz')
    · rw [if_neg h]
      have hys := List.pairwise_cons.mp hp
      refine List.Pairwise.cons ?_ (ih hys.2)
      intro z hz
      rcases (mem_zInsert x ys z).mp hz with hzx | hz'
      · rw [hzx]
        exact zBefore_total x y h
      · exact hys.1 z hz'

theorem pairwise_zSorted (l : List (String × ℚ)) :
    (zSorted l).Pairwise zBefore := by
  induction l with
  | nil => simp [zSorted]
  | cons x xs ih => exact pairwise_zInsert x (zSorted xs) ih

theorem mem_zadd {β : Type} (l : List (String × β)) (m : String) (sc : β) :
    (m, sc) ∈ zadd l m sc := by
  unfold zadd
  by_cases h : l.any (fun p => p.1 == m) = true
  · rw [if_pos h]
    obtain ⟨p, hp, hpm⟩ := List.any_eq_true.mp h
    exact List.mem_map.mpr ⟨p, hp, by rw [if_pos hpm]⟩
  · rw [if_neg h]
    exact List.mem_append.mpr (Or.inr (List.mem_singleton.mpr rfl))

/-! ### Claim C7 (corrected: the redis sorted set breaks score ties by the
byte-lexicographic order of the member strings, not by creation time) -/

/-- Counterexample to C7 as stated: member b (created at time 0, base
priority 4) and member a (created 10 seconds later with base priority 5)
carry the same effective priority 5 at observation time 10000 ms, yet the
queue ranks a before b: the tie is broken by the member string order, not by
the earlier creation time, which would put b first. -/
theorem queue_tie_counterexample :
    calculateEffectivePriority 4 0 10000 = calculateEffectivePriority 5 10000 10000 ∧
    (0 : ℤ) < 10000 ∧
    (getTop qTie 2).map Prod.fst = ["a", "b"] := by
  have hwb : waitSeconds 0 10000 = 10 := by decide
  have hwa : waitSeconds 10000 10000 = 0 := by decide
  have hb5 : calculateEffectivePriority 4 0 10000 = (5 : ℚ) := by
    rw [calculateEffectivePriority, hwb]
    norm_num [agingFactor]
  have ha5 : calculateEffectivePriority 5 10000 10000 = (5 : ℚ) := by
    rw [calculateEffectivePriority, hwa]
    norm_num [agingFactor]
  refine ⟨hb5.trans ha5.symm, by norm_num, ?_⟩
  have hq : qTie = [("b", -5), ("a", -5)] := by
    rw [qTie, enqueue, enqueue, hb5, ha5]
    rfl
  rw [hq]
  rfl

/-- Claim C7 amended: among the queue members returned by getTop, two
members with equal score are ranked with the byte-lexicographically smaller
member string first (a tie in effective priority is broken by ascending
member id, not by creation time). -/
theorem getTop_tie_broken_by_member (q : List (String × ℚ)) (k i j : ℕ)
    (a b : String × ℚ) (hij : i < j)
    (ha : (getTop q k)[i]? = some a) (hb : (getTop q k)[j]? = some b)
    (hs : a.2 = b.2) : memLtb b.1 a.1 = false := by
  obtain ⟨hi, hia⟩ := List.getElem?_eq_some_iff.mp ha
  obtain ⟨hj, hjb⟩ := List.getElem?_eq_some_iff.mp hb
  have hp : (getTop q k).Pairwise zBefore :=
    List.Pairwise.sublist (List.take_sublist k (zSorted q)) (pairwise_zSorted q)
  have hrel := List.pairwise_iff_getElem.mp hp i j hi hj hij
  rw [hia, hjb] at hrel
  rcases hrel with hlt | ⟨_, hm⟩
  · rw [hs] at hlt
    exact absurd hlt (lt_irrefl _)
  · exact hm

/-- Witness for the amended C7 on the two-member queue with equal scores. -/
theorem getTop_tie_witness : memLtb "b" "a" = false :=
  getTop_tie_broken_by_member qW 2 0 1 ("a", -5) ("b", -5)
    (by norm_num) rfl rfl rfl

/-! ### Claim C3 (code bug: rollback carries no terminal-state guard, so the
admin cancel route cancels even a COMPLETED transaction) -/

/-- Claim C3 demonstration at the failing input: the admin cancel route
(TransactionService.rollback) on a COMPLETED transaction reports success and
overwrites the status to CANCELLED, instead of rejecting the call as an
invalid-state error and leaving the transaction unchanged. -/
theorem rollback_on_completed_succeeds :
    (rollback stCompleted "t1" "Cancelled by admin").1 = true ∧
    (findTransactionById
        (rollback stCompleted "t1" "Cancelled by admin").2.transactions "t1").map
      Transaction.status = some TxStatus.CANCELLED ∧
    txCompleted.status = TxStatus.COMPLETED := by
  exact ⟨rfl, rfl, rfl⟩

/-! ### Claim C2 (code bug: the customer cancel route decrements
reservedAmount by the full amount although a LOCKED transaction never had
funds reserved, leaving reservedAmount negative instead of zero) -/

/-- Claim C2 demonstration at the failing input: cancelling the LOCKED
15000 transfer does remove it from the time-lock set and does mark it
CANCELLED, but the route then decrements reservedAmount of the sender
(which was 0, no reservation ever happened for a LOCKED transaction) by the
full amount, leaving it at -15000 rather than at its pre-transaction value
0. -/
theorem customerCancel_negates_reserved :
    (customerCancel stLocked "t1" "A").1 = CancelOutcome.ok ∧
    (customerCancel stLocked "t1" "A").2.timelock = [] ∧
    (findTransactionById
        (customerCancel stLocked "t1" "A").2.transactions "t1").map
      Transaction.status = some TxStatus.CANCELLED ∧
    (findAccountById (customerCancel stLocked "t1" "A").2.accounts "A").map
      Account.reservedAmount =
      some (accRich.reservedAmount - txLocked.amount) ∧
    accRich.reservedAmount = 0 ∧
    accRich.reservedAmount - txLocked.amount = -15000 ∧
    ((-15000 : ℚ) ≠ 0) := by
  refine ⟨rfl, rfl, rfl, rfl, rfl, ?_, by norm_num⟩
  norm_num [accRich, txLocked]

/-! ### Claim C6 -/

/-- Claim C6: a successfully initiated transfer is admitted exactly once, at
creation: when amount exceeds timelockThreshold the created transaction is
LOCKED through the time-lock scheduler with its unlock time stored on the
row and its id placed in the time-lock set, the priority queue untouched;
otherwise (including equality with the threshold) it is QUEUED and enqueued
in the priority queue with its computed base priority, the time-lock set
untouched. -/
theorem initiateTransfer_admission (s : BankState)
    (newTxId fromId toNum : String) (amount : ℚ) (urg : Urgency) (now : ℤ)
    (fromAcc toAcc : Account)
    (hfresh : findTransactionById s.transactions newTxId = none)
    (hfa : findAccountById s.accounts fromId = some fromAcc)
    (hto : findAccountByNumber s.accounts toNum = some toAcc)
    (hself : ¬ fromAcc.id = toAcc.id)
    (hbal : ¬ (fromAcc.balance - fromAcc.reservedAmount -
      tierReserves fromAcc.tier < amount)) :
    ∃ s', initiateTransfer s newTxId fromId toNum amount urg now = some s' ∧
      (timelockThreshold < amount →
        (∃ t', findTransactionById s'.transactions newTxId = some t' ∧
          t'.status = TxStatus.LOCKED ∧
          t'.lockedUntil = some (now + timelockSeconds * 1000)) ∧
        (newTxId, Int.fdiv (now + timelockSeconds * 1000) 1000) ∈ s'.timelock ∧
        s'.queue = s.queue) ∧
      (¬ timelockThreshold < amount →
        (∃ t', findTransactionById s'.transactions newTxId = some t' ∧
          t'.status = TxStatus.QUEUED ∧
          s'.queue = enqueue s.queue newTxId t'.basePriority now now) ∧
        s'.timelock = s.timelock) := by
  have hfind1 : findTransactionById
      (s.transactions ++ [newTransaction newTxId fromAcc.id toAcc.id amount urg
        (calculateBasePriority urg fromAcc.tier fromAcc.riskScore) now])
      newTxId =
      some (newTransaction newTxId fromAcc.id toAcc.id amount urg
        (calculateBasePriority urg fromAcc.tier fromAcc.riskScore) now) := by
    have h := findBy_append_single Transaction.id s.transactions
      (newTransaction newTxId fromAcc.id toAcc.id amount urg
        (calculateBasePriority urg fromAcc.tier fromAcc.riskScore) now)
      newTxId hfresh
    rw [show (newTransaction newTxId fromAcc.id toAcc.id amount urg
        (calculateBasePriority urg fromAcc.tier fromAcc.riskScore) now).id =
        newTxId from rfl] at h
    rw [if_pos rfl] at h
    exact h
  by_cases hthr : timelockThreshold < amount
  · have hrw : initiateTransfer s newTxId fromId toNum amount urg now =
        some (lockTransaction
          { s with transactions := s.transactions ++
              [newTransaction newTxId fromAcc.id toAcc.id amount urg
                (calculateBasePriority urg fromAcc.tier fromAcc.riskScore) now] }
          newTxId timelockSeconds now) := by
      simp only [initiateTransfer, hfa, hto]
      rw [if_neg hself, if_neg hbal, if_pos hthr]
    refine ⟨_, hrw, fun _ => ?_, fun hcon => absurd hthr hcon⟩
    refine ⟨⟨{ newTransaction newTxId fromAcc.id toAcc.id amount urg
        (calculateBasePriority urg fromAcc.tier fromAcc.riskScore) now with
        status := .LOCKED,
        lockedUntil := some (now + timelockSeconds * 1000) }, ?_, rfl, rfl⟩,
      ?_, rfl⟩
    · exact findBy_updateBy_self Transaction.id _ newTxId
        (fun tr =>
          { tr with
            status := .LOCKED,
            lockedUntil := some (now + timelockSeconds * 1000) })
        (fun _ => rfl) _ hfind1
    · exact mem_zadd s.timelock newTxId
        (Int.fdiv (now + timelockSeconds * 1000) 1000)
  · have hrw : initiateTransfer s newTxId fromId toNum amount urg now =
        some
          { s with
            transactions := updateTransactionById
              (s.transactions ++
                [newTransaction newTxId fromAcc.id toAcc.id amount urg
                  (calculateBasePriority urg fromAcc.tier fromAcc.riskScore) now])
              newTxId (fun tr => { tr with status := .QUEUED }),
            queue := enqueue s.queue newTxId
              (calculateBasePriority urg fromAcc.tier fromAcc.riskScore) now now } := by
      simp only [initiateTransfer, hfa, hto]
      rw [if_neg hself, if_neg hbal, if_neg hthr]
    refine ⟨_, hrw, fun hcon => absurd hcon hthr, fun _ => ?_⟩
    refine ⟨⟨{ newTransaction newTxId fromAcc.id toAcc.id amount urg
        (calculateBasePriority urg fromAcc.tier fromAcc.riskScore) now with
        status := .QUEUED }, ?_, rfl, rfl⟩, rfl⟩
    exact findBy_updateBy_self Transaction.id _ newTxId
      (fun tr => { tr with status := .QUEUED })
      (fun _ => rfl) _ hfind1

/-- Witness for C6: transferring 15000 (above the threshold 10000) from the
Basic account A with balance 20000 to account number 1002 at time 0 locks
the transaction until 30000 ms and holds it with unlock score 30, leaving
the priority queue untouched. -/
theorem initiateTransfer_admission_witness :
    ∃ s', initiateTransfer stFresh "t9" "A" "1002" 15000 .NORMAL 0 = some s' ∧
      (∃ t', findTransactionById s'.transactions "t9" = some t' ∧
        t'.status = TxStatus.LOCKED ∧
        t'.lockedUntil = some (0 + timelockSeconds * 1000)) ∧
      ("t9", Int.fdiv (0 + timelockSeconds * 1000) 1000) ∈ s'.timelock ∧
      s'.queue = stFresh.queue := by
  obtain ⟨s', hs', hlock, -⟩ :=
    initiateTransfer_admission stFresh "t9" "A" "1002" 15000 .NORMAL 0
      accRich accB rfl rfl rfl (by decide)
      (by norm_num [accRich, tierReserves])
  exact ⟨s', hs', hlock (by norm_num [timelockThreshold])⟩

end Banking
